import Mathlib

/-
  A verification development for the dylib shared-library loader.

  The development shallowly embeds the library's pure algorithms:
  * the symbol formatter of src/format.cpp (both the MSVC and the
    gcc/clang rule sets),
  * the demangler wrapper of src/demangle.cpp,
  * the symbol-list construction of src/symbols.cpp and src/mac.cpp
    (deduplicating push, Mach-O underscore stripping, fat-binary slice
    union),
  * the resolver library::get_symbol and the catalog wrapper
    library::symbols of src/dylib.cpp, and the legacy class dylib of
    include/dylib.hpp (get_symbol, has_symbol, the move operations).

  External OS facilities (dlsym/GetProcAddress, __cxa_demangle, the
  on-disk container bytes) are modelled as parameters gathered in a
  `native_env` record.  Strings are lists of characters; machine
  pointers are `Option Nat`, with `none` standing for a null pointer.
-/

/-- Strings of the embedded program: plain lists of characters. -/
abbrev Str : Type := List Char

/-- Conversion from Lean string literals to embedded strings. -/
def str (s : String) : Str := s.toList

/- ===================== std::string primitives ===================== -/

/-- Index of the first occurrence of `pat` in `s` (from the front),
    mirroring `std::string::find` restricted to start position 0. -/
def findIdx : Str → Str → Option Nat
  | [], pat => if pat = [] then some 0 else none
  | c :: rest, pat =>
    if pat.isPrefixOf (c :: rest) then some 0
    else (findIdx rest pat).map (· + 1)

/-- `std::string::find(pat, pos)`: first occurrence of `pat` starting at
    an index `≥ pos`, or `none` for `npos`. -/
def findFrom (s pat : Str) (pos : Nat) : Option Nat :=
  (findIdx (s.drop pos) pat).map (· + pos)

/-- `std::string::replace(pos, len, repl)`. -/
def replaceAt (s : Str) (pos len : Nat) (repl : Str) : Str :=
  s.take pos ++ repl ++ s.drop (pos + len)

/- ===================== src/format.cpp ===================== -/

/-- The loop body of `replace_occurrences`: find `pat` from `pos`,
    replace it and continue searching from the same position.  `fuel`
    bounds the number of replacements; for every pattern/replacement
    pair used by `format_symbol` a replacement never creates a new
    occurrence in the already-scanned part, so `length + 1` rounds
    always suffice. -/
def replaceOccAux : Nat → Str → Str → Str → Nat → Str
  | 0, s, _, _, _ => s
  | fuel + 1, s, pat, repl, pos =>
    match findFrom s pat pos with
    | none => s
    | some p => replaceOccAux fuel (replaceAt s p pat.length repl) pat repl p

/-- `replace_occurrences(symbol, find, replace)` of src/format.cpp. -/
def replace_occurrences (s pat repl : Str) : Str :=
  replaceOccAux (s.length + 1) s pat repl 0

/-- `add_space_after_comma` of src/format.cpp (MSVC branch): rebuild the
    string, emitting `", "` for every `','`. -/
def add_space_after_comma : Str → Str
  | [] => []
  | c :: rest => (if c = ',' then [',', ' '] else [c]) ++ add_space_after_comma rest

/-- The characters allowed immediately before a `*`/`&` by
    `add_sym_separator` of src/format.cpp. -/
def sep_allowed (prev : Char) : Bool :=
  prev = ' ' || prev = '&' || prev = '*' || prev = '('

/-- Whether the predecessor of position `p` permits `s[p]` to stay
    unspaced (`true` also for the unreachable out-of-range case). -/
def sep_allowed_at (s : Str) (p : Nat) : Bool :=
  match s.get? (p - 1) with
  | some prev => sep_allowed prev
  | none => true

/-- The loop of `add_sym_separator`: walk the occurrences of `c`,
    inserting `" c"` when the predecessor is not one of
    `' '`, `'&'`, `'*'`, `'('`.  Each round passes one occurrence, so
    `length + 1` rounds of fuel always suffice. -/
def addSymSepAux : Nat → Str → Char → Nat → Str
  | 0, s, _, _ => s
  | fuel + 1, s, c, pos =>
    match findFrom s [c] pos with
    | none => s
    | some p =>
      if p ≠ 0 ∧ sep_allowed_at s p = false then
        addSymSepAux fuel (replaceAt s p 1 [' ', c]) c (p + 2)
      else
        addSymSepAux fuel s c (p + 1)

/-- `add_sym_separator(symbol, c)` of src/format.cpp. -/
def add_sym_separator (s : Str) (c : Char) : Str :=
  addSymSepAux (s.length + 1) s c 0

/-- `format_symbol` of src/format.cpp, gcc/clang/MinGW branch. -/
def format_symbol_posix (symbol : Str) : Str :=
  let s1 := replace_occurrences symbol (str "std::__1::") (str "std::")
  let s2 := replace_occurrences s1 (str "std::__cxx11::") (str "std::")
  let s3 := replace_occurrences s2 (str "[abi:cxx11]") []
  let s4 := replace_occurrences s3 (str "[abi:ue170006]") []
  let s5 := replace_occurrences s4 (str "()") (str "(void)")
  let s6 := replace_occurrences s5 (str "> >") (str ">>")
  let s7 := add_sym_separator s6 '*'
  add_sym_separator s7 '&'

/-- `format_symbol` of src/format.cpp, MSVC branch. -/
def format_symbol_msvc (symbol : Str) : Str :=
  let s1 := replace_occurrences symbol (str "(class ") (str "(")
  let s2 := replace_occurrences s1 (str "<class ") (str "<")
  let s3 := replace_occurrences s2 (str ",class ") (str ",")
  let s4 := replace_occurrences s3 (str "(struct ") (str "(")
  let s5 := replace_occurrences s4 (str "<struct ") (str "<")
  let s6 := replace_occurrences s5 (str ",struct ") (str ",")
  let s7 := replace_occurrences s6 (str "> >") (str ">>")
  let s8 := replace_occurrences s7 (str ">const") (str "> const")
  add_space_after_comma s8

/- ===================== data model ===================== -/

/-- Error taxonomy of the library (exception classes of dylib.hpp and the
    standard exceptions thrown by src/dylib.cpp; the payloads of
    `symbol_not_found` and `symbol_multiple_matches` follow the
    constructor arguments used in src/dylib.cpp). -/
inductive dylib_error where
  | invalid_argument (message : Str)
  | logic_error (message : Str)
  | load_error (message : Str)
  | symbol_not_found (name initial_error : Str)
  | symbol_multiple_matches (name matches_display : Str)
  | symbol_collection_error (message : Str)
  | symbol_error (message : Str)
  deriving DecidableEq

/-- `internal_symbol_type` of src/dylib.cpp. -/
inductive internal_symbol_type where
  | C
  | CPP
  deriving DecidableEq

/-- `internal_symbol_info` of src/dylib.cpp. -/
structure internal_symbol_info where
  name : Str
  demangled_name : Str
  type : internal_symbol_type
  loadable : Bool
  deriving DecidableEq

/-- `dylib::symbol_type`.  Modelled from the spec: the public header
    declaring it is not under src/, only the cast in
    `library::symbols` uses it. -/
inductive symbol_type where
  | C
  | CPP
  deriving DecidableEq

/-- `dylib::symbol_info`, the public record `{name, demangled_name,
    type, loadable}` built by `library::symbols`. -/
structure symbol_info where
  name : Str
  demangled_name : Str
  type : symbol_type
  loadable : Bool
  deriving DecidableEq

/-- The per-entry conversion performed in `library::symbols`
    (field copy plus `static_cast<symbol_type>`). -/
def to_symbol_info (s : internal_symbol_info) : symbol_info :=
  ⟨s.name, s.demangled_name,
   (match s.type with
    | internal_symbol_type.C => symbol_type.C
    | internal_symbol_type.CPP => symbol_type.CPP),
   s.loadable⟩

/-- The ambient platform facilities consumed by src/dylib.cpp and
    src/demangle.cpp:
    * `locate` models `locate_symbol` (`dlsym`/`GetProcAddress`);
      `none` is a null result;
    * `cxa_demangle` models `abi::__cxa_demangle` (`none` = not a
      mangled name);
    * `get_symbols` models the symbol-catalog builder declared in
      src/dylib.cpp as
      `std::vector<internal_symbol_info> get_symbols(handle, fd)`.
      Modelled from the spec: that definition is not under src/ (src
      only holds an older string-list revision); per the spec it
      either yields the deduplicated records or fails with a short
      diagnostic carried by a runtime error;
    * `error_description` models `get_error_description`
      (`dlerror`/`FormatMessageA`). -/
structure native_env where
  locate : Nat → Str → Option Nat
  cxa_demangle : Str → Option Str
  get_symbols : Nat → Int → Except Str (List internal_symbol_info)
  error_description : Str

/-- `demangle_symbol` of src/demangle.cpp (gcc/clang branch): demangle
    via the toolchain facility, returning `""` when the input is not a
    mangled name and the formatted text otherwise. -/
def demangle_symbol (env : native_env) (symbol : Str) : Str :=
  match env.cxa_demangle symbol with
  | none => []
  | some res => format_symbol_posix res

/-- `dylib::library` of src/dylib.cpp: the owned loader handle and (on
    macOS) the backing read-only file descriptor.  A `none` handle is
    the null/moved-from state; the default member values (null handle,
    fd -1) follow the destructor's guards in src/dylib.cpp. -/
structure library where
  m_handle : Option Nat
  m_fd : Int
  deriving DecidableEq

/-- `library::symbols` of src/dylib.cpp: reject a null handle, run the
    catalog builder, convert each record, and wrap a builder failure
    into `symbol_collection_error` (the `catch (std::runtime_error)`
    block).  No partial list can be returned. -/
def library.symbols (env : native_env) (lib : library) :
    Except dylib_error (List symbol_info) :=
  match lib.m_handle with
  | none => Except.error (.logic_error (str "Attempted to use a moved library object"))
  | some h =>
    match env.get_symbols h lib.m_fd with
    | Except.error e => Except.error (.symbol_collection_error e)
    | Except.ok l => Except.ok (l.map to_symbol_info)

/-- The fuzzy-match test of `library::get_symbol`
    (src/dylib.cpp lines 193-194): the demangled text starts with the
    requested name (`find == 0`) and the character after the prefix is
    the end of the string or `'('`. -/
def fuzzy_match (demangled n : Str) : Bool :=
  (findFrom demangled n 0 == some 0) &&
  ((demangled.length == n.length) || (demangled.get? n.length == some '('))

/-- The symbol-matching loop of `library::get_symbol`
    (src/dylib.cpp lines 187-196): skip non-loadable entries,
    re-demangle each raw name, and push the raw names that pass
    `fuzzy_match`. -/
def match_loop (env : native_env) (n : Str) :
    List symbol_info → List Str → List Str
  | [], acc => acc
  | sym :: rest, acc =>
    if sym.loadable = false then match_loop env n rest acc
    else if fuzzy_match (demangle_symbol env sym.name) n then
      match_loop env n rest (acc ++ [sym.name])
    else match_loop env n rest acc

/-- The ambiguity display of `library::get_symbol`
    (src/dylib.cpp lines 206-207): `"- " + sym + '\n'` per match. -/
def matches_display (matching : List Str) : Str :=
  matching.foldl (fun acc sym => acc ++ str "- " ++ sym ++ ['\n']) []

/-- `library::get_symbol` of src/dylib.cpp: argument and handle checks,
    direct native lookup, then the fuzzy catalog fallback.  The success
    payload is the raw pointer value, `none` standing for null (the
    single-match branch returns `locate_symbol`'s result unchecked). -/
def library.get_symbol (env : native_env) (lib : library)
    (symbol_name : Option Str) : Except dylib_error (Option Nat) :=
  match symbol_name with
  | none => Except.error (.invalid_argument (str "The symbol name to lookup is null"))
  | some n =>
    if n = [] then
      Except.error (.invalid_argument (str "The symbol name to lookup is an empty string"))
    else
      match lib.m_handle with
      | none => Except.error (.logic_error (str "Attempted to use a moved library object"))
      | some h =>
        match env.locate h n with
        | some sym => Except.ok (some sym)
        | none =>
          match library.symbols env lib with
          | Except.error e => Except.error e
          | Except.ok syms =>
            match match_loop env n syms [] with
            | [] => Except.error (.symbol_not_found n env.error_description)
            | [m] => Except.ok (env.locate h m)
            | m :: m2 :: rest =>
              Except.error (.symbol_multiple_matches n
                (matches_display (m :: m2 :: rest)))

/-- `library::library(library &&)` of src/dylib.cpp: the fresh object's
    default members (null handle, fd -1) are swapped with the source.
    Result: (the new object, the moved-from source). -/
def library.move_ctor (other : library) : library × library :=
  (⟨other.m_handle, other.m_fd⟩, ⟨none, -1⟩)

/-- `library::operator=(library &&)` of src/dylib.cpp: unless the two
    objects are the same (`this != &other`), the members are swapped.
    Result: (the assigned-to target, the moved-from source). -/
def library.move_assign (target source : library) (same : Bool) :
    library × library :=
  if same then (target, source) else (source, target)

/- ===================== include/dylib.hpp (legacy class dylib) ===================== -/

/-- The legacy `class dylib` of include/dylib.hpp: just the owned
    loader handle (`m_handle{nullptr}`). -/
structure dylib where
  m_handle : Option Nat
  deriving DecidableEq

/-- `dylib::get_symbol(const char *)` of include/dylib.hpp
    (lines 284-295): null-argument check, handle check, one direct
    native lookup, `symbol_error` when that lookup yields null. -/
def dylib.get_symbol (env : native_env) (d : dylib)
    (symbol_name : Option Str) : Except dylib_error Nat :=
  match symbol_name with
  | none => Except.error (.invalid_argument (str "Null parameter"))
  | some n =>
    match d.m_handle with
    | none => Except.error (.logic_error (str "The dynamic library handle is null"))
    | some h =>
      match env.locate h n with
      | none =>
        Except.error (.symbol_error
          (str "Could not get symbol \"" ++ n ++ str "\"\n" ++ env.error_description))
      | some sym => Except.ok sym

/-- `dylib::has_symbol` of include/dylib.hpp (lines 357-365): a total
    Boolean query (the member is `noexcept` and calls only `noexcept`
    operations); a null handle or a null name collapses to `false`. -/
def dylib.has_symbol (env : native_env) (d : dylib)
    (symbol_name : Option Str) : Bool :=
  match d.m_handle, symbol_name with
  | some h, some n => (env.locate h n).isSome
  | _, _ => false

/-- `dylib::dylib(dylib &&)` of include/dylib.hpp: take the source's
    handle and null the source.  Result: (new object, moved-from). -/
def dylib.move_ctor (other : dylib) : dylib × dylib :=
  (⟨other.m_handle⟩, ⟨none⟩)

/-- `dylib::operator=(dylib &&)` of include/dylib.hpp (lines 194-198):
    swap handles unless the objects are the same.
    Result: (assigned-to target, moved-from source). -/
def dylib.move_assign (target source : dylib) (same : Bool) : dylib × dylib :=
  if same then (target, source) else (source, target)

/- ===================== src/symbols.cpp ===================== -/

/-- The Mach-O leading-underscore strip (`if (name[0] == '_') name++`)
    of src/symbols.cpp and src/mac.cpp: remove exactly one leading
    underscore when present. -/
def strip_underscore : Str → Str
  | '_' :: rest => rest
  | s => s

/-- `add_symbol` of src/symbols.cpp (lines 20-38), Apple configuration:
    skip null/empty names; in demangle mode push the demangled text
    when demangling succeeds (deduplicated against the demangled
    texts already present) and otherwise push nothing; in raw mode
    strip one leading underscore, then push if not already present. -/
def add_symbol (dem : Str → Str) (result : List Str) (symbol : Str)
    (demangle : Bool) : List Str :=
  if symbol = [] then result
  else if demangle then
    if dem symbol = [] then result
    else if dem symbol ∈ result then result
    else result ++ [dem symbol]
  else if strip_underscore symbol ∈ result then result
  else result ++ [strip_underscore symbol]

/-- The per-slice symbol walk of `get_symbols_at_off` in
    src/symbols.cpp (lines 154-167): the slice's raw table entries in
    order, each filtered by `!loadable || dlsym(handle, name)` and
    pushed through `add_symbol` into a fresh list.  The byte-level
    Mach-O parsing (headers, offsets, string table) is abstracted into
    the resulting entry list. -/
def slice_symbols (dem : Str → Str) (native : Str → Bool)
    (demangle loadable : Bool) (entries : List Str) : List Str :=
  entries.foldl
    (fun acc name =>
      if !loadable || native name then add_symbol dem acc name demangle else acc)
    []

/-- The fat-binary branch of `get_symbols` in src/symbols.cpp
    (lines 188-211): run the per-slice reader on every architecture
    slice and move each slice's list onto the back of the combined
    list. -/
def fat_symbols (dem : Str → Str) (native : Str → Bool)
    (demangle loadable : Bool) (slices : List (List Str)) : List Str :=
  slices.foldl
    (fun acc slice => acc ++ slice_symbols dem native demangle loadable slice)
    []

/- ===================== src/mac.cpp ===================== -/

/-- The raw-name push of src/mac.cpp (lines 99-103): strip one leading
    underscore, then push unless already present. -/
def mac_raw_push (result : List Str) (name : Str) : List Str :=
  if strip_underscore name ∈ result then result
  else result ++ [strip_underscore name]

/-- The per-entry body of the symbol loop in `get_symbols_at_off` of
    src/mac.cpp (lines 83-103): skip empty names; in demangle mode try
    the demangler on the name as stored (underscore intact) and, on
    success, push the demangled text (the duplicate check compares the
    raw name against the collected list); otherwise fall through to
    the underscore-stripped raw push. -/
def mac_add_entry (dem : Str → Str) (demangle : Bool) (result : List Str)
    (name : Str) : List Str :=
  if name = [] then result
  else if demangle then
    if dem name = [] then mac_raw_push result name
    else if name ∈ result then result
    else result ++ [dem name]
  else mac_raw_push result name

/-- The symbol loop of `get_symbols_at_off` of src/mac.cpp over a
    slice's entry list. -/
def mac_get_symbols_at_off (dem : Str → Str) (demangle : Bool)
    (entries : List Str) : List Str :=
  entries.foldl (mac_add_entry dem demangle) []

/- ===================== claim-side (spec-worded) definitions ===================== -/

/-- Modelled from the spec: the spec's matching rule for the resolver
    fallback, applied to the catalog record's `demangled_name` field
    (claim C1: "each SymbolInfo whose demangled_name starts with
    requested_name" and whose following character is `'('` or the end
    of the string), with no further restriction. -/
def claim_matches (syms : List symbol_info) (n : Str) : List symbol_info :=
  syms.filter (fun s => fuzzy_match s.demangled_name n)

/-- The matching entries the code actually collects on the fallback
    path of `library::get_symbol`: loadable entries whose raw name,
    demangled afresh by `demangle_symbol`, passes `fuzzy_match`; the
    collected values are the raw names. -/
def code_matches (env : native_env) (n : Str)
    (syms : List internal_symbol_info) : List Str :=
  ((syms.map to_symbol_info).filter
      (fun s => s.loadable && fuzzy_match (demangle_symbol env s.name) n)).map
    (fun s => s.name)

/-- Modelled from the spec: the per-entry Mach-O processing as claim C9
    words it, with the single leading underscore stripped from the raw
    name before any use (before the demangling attempt, the duplicate
    check and the push). -/
def mac_add_entry_spec (dem : Str → Str) (demangle : Bool)
    (result : List Str) (name : Str) : List Str :=
  if name = [] then result
  else if demangle then
    if dem (strip_underscore name) = [] then
      mac_raw_push result name
    else if strip_underscore name ∈ result then result
    else result ++ [dem (strip_underscore name)]
  else mac_raw_push result name

deriving instance DecidableEq for Except

/- ===================== concrete test environments ===================== -/

/-- A demangling table for a library exporting `fn(void)` (mangled
    `_Z2fnv`) and `fn(double)` (mangled `_Z2fnd`); everything else is
    not a mangled name. -/
def cxa_fn : Str → Option Str := fun s =>
  if s = str "_Z2fnv" then some (str "fn()")
  else if s = str "_Z2fnd" then some (str "fn(double)")
  else none

/-- Catalog with one loadable and one non-loadable overload of `fn`. -/
def syms_fn_mixed : List internal_symbol_info :=
  [⟨str "_Z2fnv", str "fn(void)", internal_symbol_type.CPP, true⟩,
   ⟨str "_Z2fnd", str "fn(double)", internal_symbol_type.CPP, false⟩]

/-- Catalog with two loadable overloads of `fn`. -/
def syms_fn_both : List internal_symbol_info :=
  [⟨str "_Z2fnv", str "fn(void)", internal_symbol_type.CPP, true⟩,
   ⟨str "_Z2fnd", str "fn(double)", internal_symbol_type.CPP, true⟩]

/-- Loader state where only the raw name `_Z2fnv` resolves. -/
def env_fn_mixed : native_env :=
  ⟨fun _ s => if s = str "_Z2fnv" then some 42 else none,
   cxa_fn,
   fun _ _ => Except.ok syms_fn_mixed,
   str "undefined symbol: fn"⟩

/-- Loader state where nothing resolves (both overloads cataloged as
    loadable): reaches the ambiguity branch on request `fn`. -/
def env_fn_both : native_env :=
  ⟨fun _ _ => none,
   cxa_fn,
   fun _ _ => Except.ok syms_fn_both,
   str "undefined symbol: fn"⟩

/-- Loader state whose catalog lists `_Z2fnv` as loadable although the
    loader resolves nothing: the catalog/loader inconsistency of
    claim C2. -/
def env_fn_stale : native_env :=
  ⟨fun _ _ => none,
   cxa_fn,
   fun _ _ => Except.ok [⟨str "_Z2fnv", str "fn(void)", internal_symbol_type.CPP, true⟩],
   str "undefined symbol: fn"⟩

/-- A reader that fails with the PE diagnostic of src/symbols.cpp. -/
def env_bad_container : native_env :=
  ⟨fun _ _ => none,
   fun _ => none,
   fun _ _ => Except.error (str "Invalid DOS header"),
   str "err"⟩

/-- Loader state where handle 2 resolves the name `g` (and nothing
    else resolves): distinguishes which handle a library holds. -/
def env_handle2 : native_env :=
  ⟨fun h s => if h = 2 ∧ s = str "g" then some 7 else none,
   fun _ => none,
   fun _ _ => Except.ok [],
   str "err"⟩

/-- Loader state where the empty name resolves to an address, as a
    native loader is free to do. -/
def env_empty_name : native_env :=
  ⟨fun _ s => if s = [] then some 7 else none,
   fun _ => none,
   fun _ _ => Except.ok [],
   str "err"⟩

/-- A demangler that only understands `_Z3foov` (the underscore-
    stripped form of the Mach-O entry `__Z3foov`). -/
def dem_foo : Str → Str := fun s =>
  if s = str "_Z3foov" then str "foo(void)" else []

/-- A library with a live handle. -/
def lib_live : library := ⟨some 1, 3⟩

/- ===================== formatter fixpoint predicates ===================== -/

/-- Whether `pat` occurs anywhere in `s`. -/
def contains_pat (s pat : Str) : Bool :=
  (findFrom s pat 0).isSome

/-- Whether `s` contains a comma. -/
def has_comma : Str → Bool
  | [] => false
  | c :: rest => (c == ',') || has_comma rest

/-- Every occurrence of `c` (beyond position 0) is already preceded by
    one of the characters `add_sym_separator` accepts. -/
def seps_ok (c : Char) : Str → Bool
  | [] => true
  | [_] => true
  | a :: b :: rest => (if b = c then sep_allowed a else true) && seps_ok c (b :: rest)

/-- `s` is a fixpoint of every rewriting rule of the gcc/clang
    `format_symbol`: none of the six search patterns occurs and every
    `*`/`&` is already separated. -/
def posix_clean (s : Str) : Bool :=
  !contains_pat s (str "std::__1::") && !contains_pat s (str "std::__cxx11::") &&
  !contains_pat s (str "[abi:cxx11]") && !contains_pat s (str "[abi:ue170006]") &&
  !contains_pat s (str "()") && !contains_pat s (str "> >") &&
  seps_ok '*' s && seps_ok '&' s

/-- `s` is a fixpoint of every rewriting rule of the MSVC
    `format_symbol`: none of the eight search patterns occurs and no
    comma is present (each application appends a space after every
    comma). -/
def msvc_clean (s : Str) : Bool :=
  !contains_pat s (str "(class ") && !contains_pat s (str "<class ") &&
  !contains_pat s (str ",class ") && !contains_pat s (str "(struct ") &&
  !contains_pat s (str "<struct ") && !contains_pat s (str ",struct ") &&
  !contains_pat s (str "> >") && !contains_pat s (str ">const") &&
  !has_comma s

/-- The environment whose catalog builder reports only the loadable
    records of `env`'s catalog (used to state that resolution ignores
    non-loadable entries). -/
def loadable_only_env (env : native_env) : native_env :=
  ⟨env.locate, env.cxa_demangle,
   fun h fd => (env.get_symbols h fd).map (List.filter (fun s => s.loadable)),
   env.error_description⟩

/- ===================== formatter lemmas ===================== -/

theorem replace_occurrences_id (s pat repl : Str) (h : contains_pat s pat = false) :
    replace_occurrences s pat repl = s := by
  have h' : findFrom s pat 0 = none := by
    cases hf : findFrom s pat 0 with
    | none => rfl
    | some p => rw [contains_pat, hf] at h; simp at h
  simp [replace_occurrences, replaceOccAux, h']

theorem findIdx_isPrefixOf (pat : Str) :
    ∀ (s : Str) (i : Nat), findIdx s pat = some i →
      pat.isPrefixOf (s.drop i) = true := by
  intro s
  induction s with
  | nil =>
    intro i h
    by_cases hp : pat = []
    · subst hp
      simp [findIdx] at h
      subst h
      simp [List.isPrefixOf]
    · simp [findIdx, hp] at h
  | cons a rest ih =>
    intro i h
    by_cases hp : pat.isPrefixOf (a :: rest) = true
    · rw [findIdx] at h
      simp [hp] at h
      subst h
      simpa using hp
    · rw [findIdx] at h
      simp [hp] at h
      rcases h with ⟨j, hj, hji⟩
      subst hji
      rw [List.drop_succ_cons]
      exact ih j hj

theorem get_drop_cons : ∀ (s : Str) (n : Nat) (b : Char) (t : Str),
    s.drop n = b :: t → s.get? n = some b := by
  intro s
  induction s with
  | nil =>
    intro n b t h
    rw [List.drop_nil] at h
    cases h
  | cons a r ih =>
    intro n b t h
    cases n with
    | zero =>
      simp at h
      simp [h.1]
    | succ k =>
      simpa using ih k b t (by simpa using h)

theorem findFrom_char (s : Str) (c : Char) (pos p : Nat)
    (h : findFrom s [c] pos = some p) : s.get? p = some c := by
  rw [findFrom] at h
  rcases Option.map_eq_some'.mp h with ⟨i, hi, hip⟩
  have hpre := findIdx_isPrefixOf [c] (s.drop pos) i hi
  subst hip
  cases hd : (s.drop pos).drop i with
  | nil => rw [hd] at hpre; simp [List.isPrefixOf] at hpre
  | cons b t =>
    rw [hd] at hpre
    simp [List.isPrefixOf] at hpre
    have hd2 : s.drop (i + pos) = b :: t := by
      rw [Nat.add_comm i pos, ← List.drop_drop]
      exact hd
    rw [get_drop_cons s (i + pos) b t hd2, hpre]

theorem addSymSepAux_id (s : Str) (c : Char)
    (h : ∀ p, s.get? p = some c → p = 0 ∨ sep_allowed_at s p = true) :
    ∀ fuel pos, addSymSepAux fuel s c pos = s := by
  intro fuel
  induction fuel with
  | zero => intro pos; rfl
  | succ n ih =>
    intro pos
    rw [addSymSepAux]
    cases hf : findFrom s [c] pos with
    | none => rfl
    | some p =>
      have hc := findFrom_char s c pos p hf
      rcases h p hc with h0 | hok
      · simp [h0, ih]
      · simp [hok, ih]

theorem seps_ok_spec (c : Char) :
    ∀ (s : Str), seps_ok c s = true →
      ∀ p, s.get? p = some c → p = 0 ∨ sep_allowed_at s p = true := by
  intro s
  induction s with
  | nil =>
    intro _ p hp
    simp at hp
  | cons a rest ih =>
    intro h p hp
    cases rest with
    | nil =>
      cases p with
      | zero => exact Or.inl rfl
      | succ q => simp at hp
    | cons b rest2 =>
      rw [seps_ok] at h
      rw [Bool.and_eq_true] at h
      obtain ⟨h1, h2⟩ := h
      cases p with
      | zero => exact Or.inl rfl
      | succ q =>
        right
        cases q with
        | zero =>
          simp at hp
          rw [sep_allowed_at]
          simp
          simpa [hp] using h1
        | succ r =>
          have hp' : (b :: rest2).get? (r + 1) = some c := by simpa using hp
          rcases ih h2 (r + 1) hp' with h0 | hok
          · simp at h0
          · rw [sep_allowed_at] at hok ⊢
            simpa using hok

theorem add_sym_separator_id (s : Str) (c : Char) (h : seps_ok c s = true) :
    add_sym_separator s c = s :=
  addSymSepAux_id s c (seps_ok_spec c s h) _ _

theorem add_space_after_comma_id (s : Str) (h : has_comma s = false) :
    add_space_after_comma s = s := by
  induction s with
  | nil => rfl
  | cons a rest ih =>
    rw [has_comma] at h
    rcases Bool.or_eq_false_iff.mp h with ⟨h1, h2⟩
    have ha : a ≠ ',' := by simpa using h1
    simp [add_space_after_comma, ha, ih h2]

theorem format_symbol_posix_id (s : Str) (h : posix_clean s = true) :
    format_symbol_posix s = s := by
  rw [posix_clean] at h
  simp only [Bool.and_eq_true, Bool.not_eq_true'] at h
  obtain ⟨⟨⟨⟨⟨⟨⟨h1, h2⟩, h3⟩, h4⟩, h5⟩, h6⟩, h7⟩, h8⟩ := h
  rw [format_symbol_posix]
  rw [replace_occurrences_id _ _ _ h1, replace_occurrences_id _ _ _ h2,
      replace_occurrences_id _ _ _ h3, replace_occurrences_id _ _ _ h4,
      replace_occurrences_id _ _ _ h5, replace_occurrences_id _ _ _ h6,
      add_sym_separator_id _ _ h7, add_sym_separator_id _ _ h8]

theorem format_symbol_msvc_id (s : Str) (h : msvc_clean s = true) :
    format_symbol_msvc s = s := by
  rw [msvc_clean] at h
  simp only [Bool.and_eq_true, Bool.not_eq_true'] at h
  obtain ⟨⟨⟨⟨⟨⟨⟨⟨h1, h2⟩, h3⟩, h4⟩, h5⟩, h6⟩, h7⟩, h8⟩, h9⟩ := h
  rw [format_symbol_msvc]
  rw [replace_occurrences_id _ _ _ h1, replace_occurrences_id _ _ _ h2,
      replace_occurrences_id _ _ _ h3, replace_occurrences_id _ _ _ h4,
      replace_occurrences_id _ _ _ h5, replace_occurrences_id _ _ _ h6,
      replace_occurrences_id _ _ _ h7, replace_occurrences_id _ _ _ h8,
      add_space_after_comma_id _ h9]

/- ===================== resolver lemmas ===================== -/

theorem match_loop_eq (env : native_env) (n : Str) :
    ∀ (syms : List symbol_info) (acc : List Str),
      match_loop env n syms acc =
        acc ++ (syms.filter
          (fun s => s.loadable && fuzzy_match (demangle_symbol env s.name) n)).map
            (fun s => s.name) := by
  intro syms
  induction syms with
  | nil => intro acc; simp [match_loop]
  | cons a rest ih =>
    intro acc
    by_cases hl : a.loadable = false
    · rw [match_loop]
      simp [hl, ih]
    · have hl' : a.loadable = true := by
        cases ha : a.loadable
        · exact absurd ha hl
        · rfl
      by_cases hf : fuzzy_match (demangle_symbol env a.name) n = true
      · rw [match_loop]
        simp [hl', hf, ih]
      · have hf' : fuzzy_match (demangle_symbol env a.name) n = false := by
          cases hb : fuzzy_match (demangle_symbol env a.name) n
          · rfl
          · exact absurd hb hf
        rw [match_loop]
        simp [hl', hf', ih]

theorem match_loop_cxa (env env' : native_env)
    (hc : env'.cxa_demangle = env.cxa_demangle) (n : Str) :
    ∀ (l : List symbol_info) (acc : List Str),
      match_loop env' n l acc = match_loop env n l acc := by
  intro l
  induction l with
  | nil => intro acc; rfl
  | cons a rest ih =>
    intro acc
    rw [match_loop, match_loop]
    have hd : demangle_symbol env' a.name = demangle_symbol env a.name := by
      rw [demangle_symbol, demangle_symbol, hc]
    rw [hd]
    by_cases hl : a.loadable = false
    · simp [hl, ih]
    · by_cases hf : fuzzy_match (demangle_symbol env a.name) n = true
      · simp [hl, hf, ih]
      · simp [hl, hf, ih]

theorem filter_loadable_map (env : native_env) (n : Str) :
    ∀ (l : List internal_symbol_info),
      ((l.filter (fun s => s.loadable)).map to_symbol_info).filter
          (fun s => s.loadable && fuzzy_match (demangle_symbol env s.name) n) =
        (l.map to_symbol_info).filter
          (fun s => s.loadable && fuzzy_match (demangle_symbol env s.name) n) := by
  intro l
  induction l with
  | nil => rfl
  | cons a rest ih =>
    by_cases ha : a.loadable = true
    · simp [List.filter_cons, ha, to_symbol_info, ih]
    · have ha' : a.loadable = false := by
        cases hb : a.loadable
        · rfl
        · exact absurd hb ha
      simp [List.filter_cons, ha', to_symbol_info, ih]

/- ===================== catalog lemmas ===================== -/

theorem nodup_push {l : List Str} {a : Str} (h : l.Nodup) (ha : a ∉ l) :
    (l ++ [a]).Nodup := by
  rw [List.nodup_append]
  refine ⟨h, List.nodup_singleton a, ?_⟩
  intro x hx hxa
  rw [List.mem_singleton] at hxa
  subst hxa
  exact ha hx

theorem add_symbol_nodup (dem : Str → Str) (result : List Str) (symbol : Str)
    (demangle : Bool) (h : result.Nodup) :
    (add_symbol dem result symbol demangle).Nodup := by
  rw [add_symbol]
  split_ifs with h1 h2 h3 h4 h5
  · exact h
  · exact h
  · exact h
  · exact nodup_push h h4
  · exact h
  · exact nodup_push h h5

theorem slice_symbols_fold_nodup (dem : Str → Str) (native : Str → Bool)
    (demangle loadable : Bool) :
    ∀ (entries : List Str) (acc : List Str), acc.Nodup →
      (entries.foldl
        (fun acc name =>
          if !loadable || native name then add_symbol dem acc name demangle else acc)
        acc).Nodup := by
  intro entries
  induction entries with
  | nil => intro acc h; exact h
  | cons e rest ih =>
    intro acc h
    rw [List.foldl_cons]
    by_cases he : (!loadable || native e) = true
    · rw [if_pos he]
      exact ih _ (add_symbol_nodup dem acc e demangle h)
    · rw [if_neg he]
      exact ih _ h

theorem mac_add_entry_mem (dem : Str → Str) (demangle : Bool)
    (result : List Str) (name : Str) (x : Str)
    (hx : x ∈ mac_add_entry dem demangle result name) :
    x ∈ result ∨ x = dem name ∨ x = strip_underscore name := by
  rw [mac_add_entry, mac_raw_push] at hx
  split_ifs at hx <;>
    first
      | exact Or.inl hx
      | (rcases List.mem_append.mp hx with h | h
         · exact Or.inl h
         · rw [List.mem_singleton] at h
           exact Or.inr (Or.inl h))
      | (rcases List.mem_append.mp hx with h | h
         · exact Or.inl h
         · rw [List.mem_singleton] at h
           exact Or.inr (Or.inr h))

theorem mac_fold_mem (dem : Str → Str) (demangle : Bool) :
    ∀ (entries : List Str) (acc : List Str) (x : Str),
      x ∈ entries.foldl (mac_add_entry dem demangle) acc →
      x ∈ acc ∨ ∃ e, e ∈ entries ∧ (x = dem e ∨ x = strip_underscore e) := by
  intro entries
  induction entries with
  | nil =>
    intro acc x hx
    exact Or.inl hx
  | cons a rest ih =>
    intro acc x hx
    rw [List.foldl_cons] at hx
    rcases ih (mac_add_entry dem demangle acc a) x hx with h | ⟨e, he, hd⟩
    · rcases mac_add_entry_mem dem demangle acc a x h with h' | h' | h'
      · exact Or.inl h'
      · exact Or.inr ⟨a, List.mem_cons_self a rest, Or.inl h'⟩
      · exact Or.inr ⟨a, List.mem_cons_self a rest, Or.inr h'⟩
    · exact Or.inr ⟨e, List.mem_cons_of_mem a he, hd⟩

theorem get_symbol_fallback_eq (env : native_env) (lib : library) (n : Str) (h : Nat)
    (syms : List internal_symbol_info)
    (hn : n ≠ []) (hh : lib.m_handle = some h)
    (hl : env.locate h n = none)
    (hr : env.get_symbols h lib.m_fd = Except.ok syms) :
    library.get_symbol env lib (some n) =
      (match code_matches env n syms with
       | [] => Except.error (.symbol_not_found n env.error_description)
       | [m] => Except.ok (env.locate h m)
       | m :: m2 :: rest =>
         Except.error (.symbol_multiple_matches n
           (matches_display (m :: m2 :: rest)))) := by
  simp only [library.get_symbol, library.symbols, hh, hl, hr, if_neg hn,
    match_loop_eq, List.nil_append, code_matches]

/- ===================== claims ===================== -/

/-- C1, counterexample.  The claim collects "exactly those catalog
    entries whose demangled name starts with the requested name"
    followed by `'('` or the end of the string; with two such entries
    it demands an ambiguity failure.  In the library `env_fn_mixed`
    both catalog records match that description for the request `fn`
    (their `demangled_name` fields are `fn(void)` and `fn(double)`),
    yet the resolver succeeds with the address of the single loadable
    match: the code additionally filters on `loadable`, which the
    claim's "exactly" excludes. -/
theorem c1_counterexample :
    (claim_matches (syms_fn_mixed.map to_symbol_info) (str "fn")).length = 2 ∧
    library.get_symbol env_fn_mixed lib_live (some (str "fn")) = Except.ok (some 42) :=
  ⟨by decide, by decide⟩

/-- C1, amended: when the direct native lookup of a non-empty request
    fails and the catalog is readable, the resolver collects exactly
    `code_matches`: the loadable entries whose raw name, demangled
    afresh by `demangle_symbol` (so empty — never matching — for
    entries that are not mangled names), starts with the request
    followed by `'('` or the end of the string.  Zero collected names
    fail as symbol-not-found carrying the initial native error, one is
    resolved by a second native lookup, and two or more fail as
    symbol-ambiguous listing every matching raw name. -/
theorem c1_fuzzy_resolution (env : native_env) (lib : library) (n : Str) (h : Nat)
    (syms : List internal_symbol_info)
    (hn : n ≠ []) (hh : lib.m_handle = some h)
    (hl : env.locate h n = none)
    (hr : env.get_symbols h lib.m_fd = Except.ok syms) :
    (code_matches env n syms = [] →
      library.get_symbol env lib (some n) =
        Except.error (.symbol_not_found n env.error_description)) ∧
    (∀ m, code_matches env n syms = [m] →
      library.get_symbol env lib (some n) = Except.ok (env.locate h m)) ∧
    (2 ≤ (code_matches env n syms).length →
      library.get_symbol env lib (some n) =
        Except.error (.symbol_multiple_matches n
          (matches_display (code_matches env n syms)))) := by
  have key := get_symbol_fallback_eq env lib n h syms hn hh hl hr
  refine ⟨?_, ?_, ?_⟩
  · intro h0
    rw [key, h0]
  · intro m hm
    rw [key, hm]
  · intro h2
    cases hc : code_matches env n syms with
    | nil => rw [hc] at h2; simp at h2
    | cons m t =>
      cases t with
      | nil => rw [hc] at h2; simp at h2
      | cons m2 rest =>
        rw [key, hc]

/-- C1, witness: in `env_fn_both` both overloads of `fn` are loadable
    and nothing resolves natively, so the request `fn` fails as
    ambiguous, listing both mangled names. -/
theorem c1_fuzzy_resolution_witness :
    library.get_symbol env_fn_both lib_live (some (str "fn")) =
      Except.error (.symbol_multiple_matches (str "fn")
        (matches_display [str "_Z2fnv", str "_Z2fnd"])) := by
  have hc : code_matches env_fn_both (str "fn") syms_fn_both =
      [str "_Z2fnv", str "_Z2fnd"] := by decide
  have h := (c1_fuzzy_resolution env_fn_both lib_live (str "fn") 1 syms_fn_both
    (by decide) rfl rfl rfl).2.2 (by rw [hc]; decide)
  rw [hc] at h
  exact h

/-- C2: in `env_fn_stale` the catalog lists `_Z2fnv` as loadable while
    the native loader resolves nothing (the catalog/loader
    inconsistency of the claim).  The single-match branch of
    `library::get_symbol` returns the raw result of `locate_symbol`
    unchecked, so the caller receives a null address (`Except.ok none`)
    instead of the symbol-not-found failure the claim requires. -/
theorem c2_single_match_returns_null :
    library.get_symbol env_fn_stale lib_live (some (str "fn")) = Except.ok none := by
  decide

/-- C4, counterexample.  A fat binary whose two slices both export the
    raw name `foo` yields the list `[foo, foo]`: the fat-binary branch
    of `get_symbols` concatenates per-slice lists without cross-slice
    deduplication, so `symbols(L)` can repeat a raw name. -/
theorem c4_counterexample :
    ¬ (fat_symbols (fun _ => []) (fun _ => true) false false
        [[str "foo"], [str "foo"]]).Nodup := by
  decide

/-- C4, amended: within one slice (hence for every thin, non-fat read,
    which returns a single slice's list) the collected list holds no
    duplicate entries, in either demangle mode: `add_symbol` pushes a
    value only after checking it is not already present.  Fat reads
    concatenate the per-slice lists, so a raw name may recur once per
    slice. -/
theorem c4_slice_nodup (dem : Str → Str) (native : Str → Bool)
    (demangle loadable : Bool) (entries : List Str) :
    (slice_symbols dem native demangle loadable entries).Nodup ∧
    fat_symbols dem native demangle loadable [entries] =
      slice_symbols dem native demangle loadable entries := by
  constructor
  · exact slice_symbols_fold_nodup dem native demangle loadable entries [] List.nodup_nil
  · simp [fat_symbols]

/-- C5: whenever the catalog builder fails, `library::symbols` fails
    with a `symbol_collection_error` wrapping the builder's diagnostic
    (the `catch` block of src/dylib.cpp lines 243-245); being a single
    `Except` value, no partial list accompanies the failure. -/
theorem c5_collection_error (env : native_env) (lib : library) (h : Nat) (msg : Str)
    (hh : lib.m_handle = some h)
    (hr : env.get_symbols h lib.m_fd = Except.error msg) :
    library.symbols env lib = Except.error (.symbol_collection_error msg) := by
  simp only [library.symbols, hh, hr]

/-- C5, witness: a reader failing with the PE diagnostic
    `Invalid DOS header` surfaces as a collection error carrying
    that message. -/
theorem c5_collection_error_witness :
    library.symbols env_bad_container lib_live =
      Except.error (.symbol_collection_error (str "Invalid DOS header")) :=
  c5_collection_error env_bad_container lib_live 1 (str "Invalid DOS header") rfl rfl

/-- C6, counterexample.  `library::operator=(library&&)` swaps, so
    after `other = move(L)` with `other` loaded (handle 2), the
    moved-from `L` holds `other`'s former handle: it is not Closed,
    and a query on it succeeds instead of failing with a handle
    error. -/
theorem c6_counterexample :
    (library.move_assign ⟨some 2, 20⟩ ⟨some 1, 10⟩ false).2.m_handle = some 2 ∧
    library.get_symbol env_handle2
        (library.move_assign ⟨some 2, 20⟩ ⟨some 1, 10⟩ false).2 (some (str "g")) =
      Except.ok (some 7) :=
  ⟨rfl, by decide⟩

/-- C6, amended: move construction transfers the handle/fd pair to the
    new object and leaves the source Closed (null handle), after which
    `get_symbol` on a valid name and `symbols` both fail with the
    handle error, while the new object behaves exactly as the source
    did; move assignment between distinct objects exchanges the two
    states, so the moved-from source ends Closed only when the target
    was already empty. -/
theorem c6_move_semantics (env : native_env) (other : library) (n : Str)
    (hn : n ≠ []) :
    (library.move_ctor other).1 = other ∧
    (library.move_ctor other).2.m_handle = none ∧
    library.get_symbol env (library.move_ctor other).2 (some n) =
      Except.error (.logic_error (str "Attempted to use a moved library object")) ∧
    library.symbols env (library.move_ctor other).2 =
      Except.error (.logic_error (str "Attempted to use a moved library object")) ∧
    (∀ name, library.get_symbol env (library.move_ctor other).1 name =
      library.get_symbol env other name) ∧
    (∀ target source : library,
      library.move_assign target source false = (source, target)) := by
  refine ⟨rfl, rfl, ?_, rfl, fun name => rfl, fun target source => rfl⟩
  simp [library.get_symbol, library.move_ctor, if_neg hn]

/-- C6, witness: instantiated at the live library and the name `g`. -/
theorem c6_move_semantics_witness :
    (library.move_ctor lib_live).1 = lib_live ∧
    (library.move_ctor lib_live).2.m_handle = none ∧
    library.get_symbol env_handle2 (library.move_ctor lib_live).2 (some (str "g")) =
      Except.error (.logic_error (str "Attempted to use a moved library object")) ∧
    library.get_symbol env_handle2 (library.move_ctor lib_live).1 (some (str "g")) =
      library.get_symbol env_handle2 lib_live (some (str "g")) ∧
    library.move_assign ⟨some 2, 20⟩ ⟨some 1, 10⟩ false = (⟨some 1, 10⟩, ⟨some 2, 20⟩) := by
  have h := c6_move_semantics env_handle2 lib_live (str "g") (by decide)
  exact ⟨h.1, h.2.1, h.2.2.1, h.2.2.2.2.1 (some (str "g")),
    h.2.2.2.2.2 ⟨some 2, 20⟩ ⟨some 1, 10⟩⟩

/-- C7: `dylib::has_symbol` is a total Boolean query (its embedding is
    a total function, mirroring the `noexcept` member that calls only
    non-throwing operations) and collapses every error situation — a
    closed/moved-from library or a null name — to `false`. -/
theorem c7_has_symbol_never_fails (env : native_env) (d : dylib)
    (symbol_name : Option Str)
    (h : d.m_handle = none ∨ symbol_name = none) :
    dylib.has_symbol env d symbol_name = false := by
  rcases h with h | h
  · cases hs : symbol_name <;> simp [dylib.has_symbol, h]
  · subst h
    cases hm : d.m_handle <;> simp [dylib.has_symbol]

/-- C7, witness: both error situations at concrete inputs. -/
theorem c7_has_symbol_never_fails_witness :
    dylib.has_symbol env_handle2 ⟨none⟩ (some (str "g")) = false ∧
    dylib.has_symbol env_handle2 ⟨some 2⟩ none = false :=
  ⟨c7_has_symbol_never_fails env_handle2 ⟨none⟩ (some (str "g")) (Or.inl rfl),
   c7_has_symbol_never_fails env_handle2 ⟨some 2⟩ none (Or.inr rfl)⟩

/-- C8, counterexample.  The legacy resolver `dylib::get_symbol` of
    include/dylib.hpp checks only for a null name: an empty name is
    passed to the native lookup, and in `env_empty_name` (where the
    loader resolves the empty string) the call returns an address
    instead of failing with an invalid-argument error. -/
theorem c8_counterexample :
    dylib.get_symbol env_empty_name ⟨some 1⟩ (some []) = Except.ok 7 := by
  decide

/-- C8, amended: the resolver `library::get_symbol` rejects a null and
    an empty requested name with an invalid-argument error whatever
    the environment and library state (so before any native or catalog
    lookup); the legacy `dylib::get_symbol` rejects only a null name
    this way and forwards empty names to the native lookup. -/
theorem c8_invalid_argument (env : native_env) (lib : library) (d : dylib) :
    library.get_symbol env lib none =
      Except.error (.invalid_argument (str "The symbol name to lookup is null")) ∧
    library.get_symbol env lib (some []) =
      Except.error (.invalid_argument (str "The symbol name to lookup is an empty string")) ∧
    dylib.get_symbol env d none =
      Except.error (.invalid_argument (str "Null parameter")) := by
  refine ⟨rfl, ?_, rfl⟩
  rw [library.get_symbol, if_pos rfl]

/-- C9, counterexample.  For the Mach-O entry `__Z3foov` with a
    demangler that understands `_Z3foov` (the stripped form) but not
    `__Z3foov`, the code attempts demangling on the unstripped name,
    fails, and stores the stripped raw name `_Z3foov`; stripping the
    underscore before the name is used, as the claim states, would
    demangle successfully and store `foo(void)`.  The underscore is
    therefore not stripped before use. -/
theorem c9_counterexample :
    mac_add_entry dem_foo true [] (str "__Z3foov") = [str "_Z3foov"] ∧
    mac_add_entry_spec dem_foo true [] (str "__Z3foov") = [str "foo(void)"] ∧
    mac_add_entry dem_foo true [] (str "__Z3foov") ≠
      mac_add_entry_spec dem_foo true [] (str "__Z3foov") :=
  ⟨by decide, by decide, by decide⟩

/-- C9, amended: in the Mach-O reader the underscore strip happens only
    on the raw-name path, after the demangling attempt (which receives
    the name with the underscore intact): every entry of the collected
    list is either a demangler output for an unstripped raw name or a
    raw name with exactly one leading underscore stripped. -/
theorem c9_strip_on_store (dem : Str → Str) (demangle : Bool)
    (entries : List Str) (x : Str)
    (hx : x ∈ mac_get_symbols_at_off dem demangle entries) :
    ∃ e, e ∈ entries ∧ (x = dem e ∨ x = strip_underscore e) := by
  rcases mac_fold_mem dem demangle entries [] x hx with h | h
  · cases h
  · exact h

/-- C9, witness: the raw entry `_foo` (not demangleable) is stored with
    its single leading underscore stripped. -/
theorem c9_strip_on_store_witness :
    ∃ e, e ∈ [str "_foo"] ∧
      (str "foo" = dem_foo e ∨ str "foo" = strip_underscore e) :=
  c9_strip_on_store dem_foo false [str "_foo"] (str "foo") (by decide)

/-- C10: resolution never looks at non-loadable catalog entries:
    filtering the catalog down to its loadable records before
    resolution leaves every outcome of `library::get_symbol` — the
    address returned, a not-found failure or an ambiguity listing —
    unchanged, for every library, environment and request. -/
theorem c10_loadable_only (env : native_env) (lib : library)
    (symbol_name : Option Str) :
    library.get_symbol (loadable_only_env env) lib symbol_name =
      library.get_symbol env lib symbol_name := by
  cases symbol_name with
  | none => rfl
  | some n =>
    by_cases hn : n = []
    · subst hn; rfl
    · cases hh : lib.m_handle with
      | none => simp [library.get_symbol, hh]
      | some h =>
        cases hl : env.locate h n with
        | some a => simp [library.get_symbol, loadable_only_env, hh, hl]
        | none =>
          cases hr : env.get_symbols h lib.m_fd with
          | error e =>
            simp [library.get_symbol, library.symbols, loadable_only_env, hh, hl, hr,
              Except.map]
          | ok l =>
            have hl2 : (loadable_only_env env).locate h n = none := hl
            have hr2 : (loadable_only_env env).get_symbols h lib.m_fd =
                Except.ok (l.filter (fun s => s.loadable)) := by
              show Except.map (List.filter (fun s => s.loadable))
                  (env.get_symbols h lib.m_fd) = _
              rw [hr]
              rfl
            have k1 := get_symbol_fallback_eq (loadable_only_env env) lib n h
              (l.filter (fun s => s.loadable)) hn hh hl2 hr2
            have k2 := get_symbol_fallback_eq env lib n h l hn hh hl hr
            rw [k1, k2]
            have hc : code_matches (loadable_only_env env) n
                (l.filter (fun s => s.loadable)) = code_matches env n l := by
              show (((l.filter (fun s => s.loadable)).map to_symbol_info).filter
                  (fun s => s.loadable &&
                    fuzzy_match (demangle_symbol env s.name) n)).map
                  (fun s => s.name) = _
              rw [filter_loadable_map]
              rfl
            rw [hc]
            rfl

/-- C3, counterexample.  The formatter is not idempotent on either rule
    set: the MSVC comma rule appends one more space after every comma
    per application (`f(a,b)` formats to `f(a, b)` and re-formats to
    `f(a,  b)`), and the POSIX `std::__cxx11::` rewrite can create a
    fresh `std::__1::` occurrence that only a second application
    removes (`std::__cxx11::__1::x` formats to `std::__1::x` and
    re-formats to `std::x`). -/
theorem c3_counterexample :
    format_symbol_msvc (format_symbol_msvc (str "f(a,b)")) ≠
      format_symbol_msvc (str "f(a,b)") ∧
    format_symbol_posix (format_symbol_posix (str "std::__cxx11::__1::x")) ≠
      format_symbol_posix (str "std::__cxx11::__1::x") :=
  ⟨by decide, by decide⟩

/-- C3, amended: the formatter is idempotent only on texts whose first
    formatting is already a fixpoint of every rewriting rule, each
    rule set on its own terms: on the POSIX rules, whenever the
    posix-formatted text contains none of the six search patterns and
    every `*`/`&` is already separated; independently, on the MSVC
    rules, whenever the msvc-formatted text contains none of the eight
    search patterns and no comma.  In general a later rule can
    recreate an earlier rule's pattern and the comma rule always adds
    a space, so `format(format(t)) = format(t)` fails. -/
theorem c3_format_idempotent_on_clean (t : Str) :
    (posix_clean (format_symbol_posix t) = true →
      format_symbol_posix (format_symbol_posix t) = format_symbol_posix t) ∧
    (msvc_clean (format_symbol_msvc t) = true →
      format_symbol_msvc (format_symbol_msvc t) = format_symbol_msvc t) :=
  ⟨fun hp => format_symbol_posix_id _ hp,
   fun hm => format_symbol_msvc_id _ hm⟩

/-- C3, witness: the POSIX half applied to the comma-bearing signature
    `tools::adder(double, double)` (posix-clean once formatted, though
    its comma excludes it from the MSVC condition), and the MSVC half
    applied to `f(void)`. -/
theorem c3_format_idempotent_on_clean_witness :
    format_symbol_posix (format_symbol_posix (str "tools::adder(double, double)")) =
      format_symbol_posix (str "tools::adder(double, double)") ∧
    format_symbol_msvc (format_symbol_msvc (str "f(void)")) =
      format_symbol_msvc (str "f(void)") :=
  ⟨(c3_format_idempotent_on_clean (str "tools::adder(double, double)")).1 (by decide),
   (c3_format_idempotent_on_clean (str "f(void)")).2 (by decide)⟩
